import Mathlib

/-!
Shallow embedding of the THE-GALAXY repository core:
the gesture-driven motion controller, the gesture/session handling of the
app component, the per-frame render step, and the galaxy field generator.

Sources:
* `src/unnamed/part_000` (GalaxyCanvas.tsx): `stateRef`, the `animate`
  frame callback, the gesture-effect `useEffect` switch, and the particle
  generation loop.
* `src/App.tsx`: the `onmessage` handler that sets the current gesture and
  schedules a revert-to-stop timeout (`setTimeout(..., 2500)`).

Numbers are modelled as exact rationals (`ℚ`); particle positions, which
involve trigonometry, live in `ℝ`.
-/

namespace TheGalaxy

/-- The mutable motion state held in `stateRef` (part_000 lines 12-19):
current `zoom`, `rotX` (pitch), `rotY` (yaw) and their targets. -/
structure MotionState where
  zoom : ℚ
  rotX : ℚ
  rotY : ℚ
  targetZoom : ℚ
  targetRotX : ℚ
  targetRotY : ℚ
deriving DecidableEq, Repr

/-- Initial value of `stateRef` (part_000 lines 12-19). -/
def initialState : MotionState :=
  { zoom := 45, rotX := 0.3, rotY := 0
    targetZoom := 45, targetRotX := 0.3, targetRotY := 0 }

/-- The per-frame smoothing constant `0.04` (part_000 lines 106-108). -/
def smoothingFactor : ℚ := 0.04

/-- The state update performed by each `animate` frame
(part_000 lines 106-108):
`s.zoom += (s.targetZoom - s.zoom) * 0.04` and likewise for `rotX`, `rotY`.
The targets are untouched. -/
def advance (s : MotionState) : MotionState :=
  { s with
    zoom := s.zoom + (s.targetZoom - s.zoom) * 0.04
    rotX := s.rotX + (s.targetRotX - s.rotX) * 0.04
    rotY := s.rotY + (s.targetRotY - s.rotY) * 0.04 }

/-- The gesture-effect switch (part_000 lines 139-167).  At runtime the
`GalaxyGesture` enum values are the strings `zoom_in`, ..., `stop`,
`rotate` (types.ts), and the gesture field arriving from the remote
service is an arbitrary string, so the scrutinee is modelled as `String`;
`rotate` and every out-of-enum value reach the `default` branch (no-op). -/
def applyGesture (g : String) (s : MotionState) : MotionState :=
  if g = "zoom_in" then { s with targetZoom := max 8 (s.targetZoom - 10) }
  else if g = "zoom_out" then { s with targetZoom := min 180 (s.targetZoom + 10) }
  else if g = "move_left" then { s with targetRotY := s.targetRotY - 0.12 }
  else if g = "move_right" then { s with targetRotY := s.targetRotY + 0.12 }
  else if g = "move_up" then { s with targetRotX := s.targetRotX - 0.12 }
  else if g = "move_down" then { s with targetRotX := s.targetRotX + 0.12 }
  else if g = "stop" then { s with targetRotY := s.targetRotY * 0.4, targetRotX := 0.3 }
  else s

/-- The revert-to-stop delay in milliseconds
(`setTimeout(() => setCurrentGesture(GalaxyGesture.STOP), 2500)`,
App.tsx line 130). -/
def dwellDuration : ℚ := 2500

/-- Combined state of the app component and the canvas: the React
`currentGesture` state (initially `stop`), the motion state of the canvas,
and the deadlines of all pending `setTimeout` revert timers. -/
structure AppState where
  currentGesture : String
  motion : MotionState
  timers : List ℚ
deriving DecidableEq, Repr

/-- App state at mount: `useState(GalaxyGesture.STOP)` (App.tsx line 63),
the initial canvas `stateRef`, and no pending timers. -/
def initialAppState : AppState :=
  { currentGesture := "stop", motion := initialState, timers := [] }

/-- `setCurrentGesture g` together with the canvas effect it triggers:
React bails out when the new value equals the old one (and the
`useEffect` with dependency `[gesture]` only runs when the prop changes),
so the gesture effect is applied exactly when the value changes
(App.tsx line 123 / part_000 lines 139-167). -/
def setCurrentGesture (g : String) (s : AppState) : AppState :=
  if g = s.currentGesture then s
  else { s with currentGesture := g, motion := applyGesture g s.motion }

/-- The `onmessage` handling of one `controlGalaxy` call arriving at time
`t` (App.tsx lines 118-133): set the current gesture, then schedule a
revert timer at `t + 2500`.  Previously scheduled timers are left alone
(the code never calls `clearTimeout`). -/
def onGestureMessage (t : ℚ) (g : String) (s : AppState) : AppState :=
  let s1 := setCurrentGesture g s
  { s1 with timers := s1.timers ++ [t + dwellDuration] }

/-- Expiry of the pending timer with deadline `d`: it runs
`setCurrentGesture "stop"` and is removed from the pending set
(App.tsx line 130). -/
def fireTimer (d : ℚ) (s : AppState) : AppState :=
  { setCurrentGesture "stop" s with timers := s.timers.erase d }

/-- The rendering-backend objects written by the frame callback:
`camera.position.z`, `points.rotation.x`, `points.rotation.y`
(part_000 lines 104, 110-112). -/
structure RenderObjects where
  cameraZ : ℚ
  pointsRotX : ℚ
  pointsRotY : ℚ
deriving DecidableEq, Repr

/-- One `animate` frame (part_000 lines 100-115): first the constant
drift `points.rotation.y += 0.0006`, then the smoothing step on the
motion state, then `camera.position.z = s.zoom`,
`points.rotation.x = s.rotX`, `points.rotation.y += s.rotY`. -/
def animate (s : MotionState) (r : RenderObjects) : MotionState × RenderObjects :=
  let driftY := r.pointsRotY + 0.0006
  let s1 := advance s
  (s1, { cameraZ := s1.zoom, pointsRotX := s1.rotX, pointsRotY := driftY + s1.rotY })

/-- An update of the motion state: either one `animate` frame or one
gesture-effect application. -/
inductive GalaxyOp where
  | frame : GalaxyOp
  | gesture : String → GalaxyOp
deriving DecidableEq, Repr

/-- Apply one update to the motion state. -/
def applyOp (s : MotionState) (op : GalaxyOp) : MotionState :=
  match op with
  | .frame => advance s
  | .gesture g => applyGesture g s

/-- Run a sequence of updates from a start state. -/
def run (ops : List GalaxyOp) (s : MotionState) : MotionState :=
  ops.foldl applyOp s

/-- An RGB color with rational components (THREE.Color values are floats
in [0,1] for in-gamut colors). -/
structure Color3 where
  r : ℚ
  g : ℚ
  b : ℚ
deriving DecidableEq, Repr

/-- A particle position; the `x`/`z` components involve `cos`/`sin` and
live in `ℝ` (part_000 lines 69-71). -/
structure Vec3 where
  x : ℝ
  y : ℝ
  z : ℝ

/-- The generator configuration (part_000 lines 46-54).  The one source
instantiation uses `randomnessPower: 3`, so the exponent is modelled as a
natural number. -/
structure GalaxyParams where
  radius : ℚ
  branches : ℕ
  spin : ℚ
  randomness : ℚ
  randomnessPower : ℕ
  innerColor : Color3
  outerColor : Color3
deriving DecidableEq, Repr

/-- The `params` object of part_000 lines 46-54; `#ffbb33` is
(255, 187, 51)/255 and `#3399ff` is (51, 153, 255)/255. -/
def sourceParams : GalaxyParams :=
  { radius := 35, branches := 5, spin := 1.8, randomness := 0.4
    randomnessPower := 3
    innerColor := ⟨1, 187/255, 51/255⟩
    outerColor := ⟨51/255, 153/255, 1⟩ }

/-- `particleCount` (part_000 line 41). -/
def particleCount : ℕ := 85000

/-- `Math.random() < 0.5 ? 1 : -1` (part_000 lines 65-67). -/
def randSign (u : ℚ) : ℚ := if u < 0.5 then 1 else -1

/-- `THREE.Color.lerp`: each component moves by
`(other - this) * alpha` (part_000 line 74). -/
def lerpColor (c d : Color3) (alpha : ℚ) : Color3 :=
  ⟨c.r + (d.r - c.r) * alpha, c.g + (d.g - c.g) * alpha, c.b + (d.b - c.b) * alpha⟩

/-- The random draws of the generation loop, as a stream `rnd : ℕ → ℚ` of
`Math.random()` results; iteration `i` performs the seven calls
`rnd (7*i)` (radius), `rnd (7*i+1)`/`rnd (7*i+2)` (x magnitude/sign),
`rnd (7*i+3)`/`rnd (7*i+4)` (y), `rnd (7*i+5)`/`rnd (7*i+6)` (z),
in source evaluation order (part_000 lines 61-67). -/
def ParticleDraws : Type := ℕ → ℚ

/-- Position of particle `i` (part_000 lines 59-71):
`radius = Math.random() * params.radius`, `spinAngle = radius * spin`,
`branchAngle = ((i % branches) / branches) * π * 2`, per-axis offset
`pow(Math.random(), randomnessPower) * (±1) * randomness * radius`, and
`x = cos(branchAngle + spinAngle) * radius + randomX`,
`y = randomY * 0.35`,
`z = sin(branchAngle + spinAngle) * radius + randomZ`. -/
noncomputable def particlePosition (p : GalaxyParams) (rnd : ParticleDraws) (i : ℕ) : Vec3 :=
  let radius : ℚ := rnd (7 * i) * p.radius
  let spinAngle : ℚ := radius * p.spin
  let branchAngle : ℝ := (((i % p.branches : ℕ) : ℝ) / (p.branches : ℝ)) * Real.pi * 2
  let randomX : ℚ := (rnd (7 * i + 1)) ^ p.randomnessPower * randSign (rnd (7 * i + 2))
    * p.randomness * radius
  let randomY : ℚ := (rnd (7 * i + 3)) ^ p.randomnessPower * randSign (rnd (7 * i + 4))
    * p.randomness * radius
  let randomZ : ℚ := (rnd (7 * i + 5)) ^ p.randomnessPower * randSign (rnd (7 * i + 6))
    * p.randomness * radius
  ⟨Real.cos (branchAngle + (spinAngle : ℝ)) * (radius : ℝ) + (randomX : ℝ),
   (randomY : ℝ) * 0.35,
   Real.sin (branchAngle + (spinAngle : ℝ)) * (radius : ℝ) + (randomZ : ℝ)⟩

/-- Color of particle `i` (part_000 lines 73-78): the inner color lerped
toward the outer color by `radius / params.radius`. -/
def particleColor (p : GalaxyParams) (rnd : ParticleDraws) (i : ℕ) : Color3 :=
  let radius : ℚ := rnd (7 * i) * p.radius
  lerpColor p.innerColor p.outerColor (radius / p.radius)

/-- The whole generation loop (part_000 lines 59-79): `count` positions
and `count` colors. -/
noncomputable def generate (p : GalaxyParams) (count : ℕ) (rnd : ParticleDraws) :
    List Vec3 × List Color3 :=
  ((List.range count).map (particlePosition p rnd),
   (List.range count).map (particleColor p rnd))

/-- Validity of generator parameters (spec §3/§7: positive radius, at
least one branch, nonnegative randomness, positive randomness power,
in-gamut RGB endpoints). -/
def ValidParams (p : GalaxyParams) : Prop :=
  0 < p.radius ∧ 1 ≤ p.branches ∧ 0 ≤ p.randomness ∧ 1 ≤ p.randomnessPower ∧
  (0 ≤ p.innerColor.r ∧ p.innerColor.r ≤ 1) ∧
  (0 ≤ p.innerColor.g ∧ p.innerColor.g ≤ 1) ∧
  (0 ≤ p.innerColor.b ∧ p.innerColor.b ≤ 1) ∧
  (0 ≤ p.outerColor.r ∧ p.outerColor.r ≤ 1) ∧
  (0 ≤ p.outerColor.g ∧ p.outerColor.g ≤ 1) ∧
  (0 ≤ p.outerColor.b ∧ p.outerColor.b ≤ 1)

/-- Every `Math.random()` draw lies in `[0, 1)`. -/
def ValidRnd (rnd : ParticleDraws) : Prop :=
  ∀ k, 0 ≤ rnd k ∧ rnd k < 1

/-! ### Helper lemmas -/

lemma applyGesture_zoom_in_eq (s : MotionState) :
    applyGesture "zoom_in" s = { s with targetZoom := max 8 (s.targetZoom - 10) } := by
  simp [applyGesture]

lemma zoom_in_iterate_targetZoom (k : ℕ) (s : MotionState) (h : 8 ≤ s.targetZoom) :
    ((applyGesture "zoom_in")^[k] s).targetZoom = max 8 (s.targetZoom - 10 * k) := by
  induction k generalizing s with
  | zero => simpa using (max_eq_right h).symm
  | succ n ih =>
    rw [Function.iterate_succ_apply, applyGesture_zoom_in_eq,
      ih _ (by dsimp only; exact le_max_left _ _)]
    dsimp only
    rcases le_total (s.targetZoom - 10) 8 with h1 | h1
    · have hn : (0 : ℚ) ≤ 10 * n := by positivity
      rw [max_eq_left h1, max_eq_left (by linarith), max_eq_left (by push_cast; linarith)]
    · rw [max_eq_right h1]
      congr 1
      push_cast
      ring

lemma applyOp_zoom_range {s : MotionState}
    (h8 : 8 ≤ s.zoom) (h180 : s.zoom ≤ 180)
    (ht8 : 8 ≤ s.targetZoom) (ht180 : s.targetZoom ≤ 180) (op : GalaxyOp) :
    8 ≤ (applyOp s op).zoom ∧ (applyOp s op).zoom ≤ 180 ∧
    8 ≤ (applyOp s op).targetZoom ∧ (applyOp s op).targetZoom ≤ 180 := by
  cases op with
  | frame =>
    refine ⟨?_, ?_, ht8, ht180⟩ <;> · dsimp [applyOp, advance]; nlinarith
  | gesture g =>
    dsimp [applyOp, applyGesture]
    split_ifs
    · exact ⟨h8, h180, le_max_left _ _, max_le (by norm_num) (by linarith)⟩
    · exact ⟨h8, h180, le_min (by norm_num) (by linarith), min_le_left _ _⟩
    all_goals exact ⟨h8, h180, ht8, ht180⟩

lemma run_zoom_range (ops : List GalaxyOp) :
    ∀ s : MotionState, 8 ≤ s.zoom → s.zoom ≤ 180 →
      8 ≤ s.targetZoom → s.targetZoom ≤ 180 →
      8 ≤ (run ops s).zoom ∧ (run ops s).zoom ≤ 180 ∧
      8 ≤ (run ops s).targetZoom ∧ (run ops s).targetZoom ≤ 180 := by
  induction ops with
  | nil => intro s h1 h2 h3 h4; exact ⟨h1, h2, h3, h4⟩
  | cons op rest ih =>
    intro s h1 h2 h3 h4
    have hstep := applyOp_zoom_range h1 h2 h3 h4 op
    exact ih (applyOp s op) hstep.1 hstep.2.1 hstep.2.2.1 hstep.2.2.2

lemma advance_fixed {s : MotionState} (h1 : s.targetZoom = s.zoom)
    (h2 : s.targetRotX = s.rotX) (h3 : s.targetRotY = s.rotY) : advance s = s := by
  cases s
  dsimp [advance] at *
  rw [h1, h2, h3]
  norm_num

lemma advance_iterate_closed (n : ℕ) (s : MotionState) :
    (advance^[n] s).targetZoom = s.targetZoom ∧
    (advance^[n] s).targetRotX = s.targetRotX ∧
    (advance^[n] s).targetRotY = s.targetRotY ∧
    s.targetZoom - (advance^[n] s).zoom
      = (1 - smoothingFactor) ^ n * (s.targetZoom - s.zoom) ∧
    s.targetRotX - (advance^[n] s).rotX
      = (1 - smoothingFactor) ^ n * (s.targetRotX - s.rotX) ∧
    s.targetRotY - (advance^[n] s).rotY
      = (1 - smoothingFactor) ^ n * (s.targetRotY - s.rotY) := by
  induction n with
  | zero => simp
  | succ n ih =>
    obtain ⟨h1, h2, h3, h4, h5, h6⟩ := ih
    rw [Function.iterate_succ_apply']
    dsimp [advance, smoothingFactor] at *
    refine ⟨h1, h2, h3, ?_, ?_, ?_⟩
    · rw [h1, pow_succ]; linear_combination (1 - (0.04 : ℚ)) * h4
    · rw [h2, pow_succ]; linear_combination (1 - (0.04 : ℚ)) * h5
    · rw [h3, pow_succ]; linear_combination (1 - (0.04 : ℚ)) * h6

lemma pow_smoothing_le (n : ℕ) : (0 : ℚ) ≤ (1 - smoothingFactor) ^ n :=
  pow_nonneg (by norm_num [smoothingFactor]) n

set_option maxRecDepth 10000 in
lemma pow_smoothing_170 : (1 - smoothingFactor) ^ 170 ≤ (0.001 : ℚ) := by
  have hnat : (1000 : ℕ) * 24 ^ 170 ≤ 25 ^ 170 := by norm_num
  have h : ((24 : ℚ) / 25) ^ 170 ≤ 1 / 1000 := by
    rw [div_pow, div_le_div_iff (by positivity) (by norm_num)]
    calc ((24 : ℚ) ^ 170) * 1000 = 1000 * 24 ^ 170 := by ring
    _ ≤ 25 ^ 170 := by exact_mod_cast hnat
    _ = 1 * 25 ^ 170 := by ring
  calc (1 - smoothingFactor) ^ 170 = ((24 : ℚ) / 25) ^ 170 := by norm_num [smoothingFactor]
  _ ≤ 1 / 1000 := h
  _ = (0.001 : ℚ) := by norm_num

lemma log_pow_bound_low : ((25 : ℝ) / 24) ^ 169 < 1000 := by
  have hnat : (25 : ℕ) ^ 169 < 1000 * 24 ^ 169 := by norm_num
  rw [div_pow, div_lt_iff (by positivity)]
  calc ((25 : ℝ) ^ 169) = ((25 ^ 169 : ℕ) : ℝ) := by push_cast; ring
  _ < ((1000 * 24 ^ 169 : ℕ) : ℝ) := by exact_mod_cast hnat
  _ = 1000 * 24 ^ 169 := by push_cast; ring

lemma log_pow_bound_high : (1000 : ℝ) ≤ ((25 : ℝ) / 24) ^ 170 := by
  have hnat : (1000 : ℕ) * 24 ^ 170 ≤ 25 ^ 170 := by norm_num
  rw [div_pow, le_div_iff (by positivity)]
  calc (1000 : ℝ) * 24 ^ 170 = ((1000 * 24 ^ 170 : ℕ) : ℝ) := by push_cast; ring
  _ ≤ ((25 ^ 170 : ℕ) : ℝ) := by exact_mod_cast hnat
  _ = 25 ^ 170 := by push_cast; ring

lemma ceil_log_ratio_eq_170 :
    ⌈Real.log 0.001 / Real.log (1 - ((smoothingFactor : ℚ) : ℝ))⌉ = 170 := by
  have hf : (1 - ((smoothingFactor : ℚ) : ℝ)) = 24 / 25 := by
    norm_num [smoothingFactor]
  have hL : 0 < Real.log (25 / 24) := Real.log_pos (by norm_num)
  have h2425 : Real.log ((24 : ℝ) / 25) = -Real.log (25 / 24) := by
    rw [show ((24 : ℝ) / 25) = ((25 : ℝ) / 24)⁻¹ by norm_num, Real.log_inv]
  have h0001 : Real.log (0.001 : ℝ) = -Real.log 1000 := by
    rw [show (0.001 : ℝ) = ((1000 : ℝ))⁻¹ by norm_num, Real.log_inv]
  have hb1 : Real.log 1000 ≤ 170 * Real.log (25 / 24) := by
    have h := Real.log_le_log (by norm_num) log_pow_bound_high
    rw [Real.log_pow] at h
    exact_mod_cast h
  have hb2 : 169 * Real.log (25 / 24) < Real.log 1000 := by
    have h := Real.log_lt_log (by positivity) log_pow_bound_low
    rw [Real.log_pow] at h
    exact_mod_cast h
  rw [hf, h2425, h0001, neg_div_neg_eq]
  rw [Int.ceil_eq_iff]
  constructor
  · push_cast
    rw [lt_div_iff hL]
    linarith
  · push_cast
    rw [div_le_iff hL]
    linarith

lemma lerp_mem_unit {a b c : ℚ} (ha0 : 0 ≤ a) (ha1 : a ≤ 1) (hb0 : 0 ≤ b)
    (hb1 : b ≤ 1) (hc0 : 0 ≤ c) (hc1 : c ≤ 1) :
    0 ≤ a + (b - a) * c ∧ a + (b - a) * c ≤ 1 :=
  ⟨by nlinarith, by nlinarith⟩

lemma randSign_abs (v : ℚ) : |randSign v| = 1 := by
  unfold randSign
  split_ifs <;> simp

lemma offset_abs_le {u a r : ℚ} (v : ℚ) (p : ℕ) (hu0 : 0 ≤ u) (hu1 : u ≤ 1)
    (ha : 0 ≤ a) (hr : 0 ≤ r) :
    |u ^ p * randSign v * a * r| ≤ a * r := by
  rw [abs_mul, abs_mul, abs_mul, randSign_abs, abs_of_nonneg (pow_nonneg hu0 p),
    abs_of_nonneg ha, abs_of_nonneg hr]
  have hup : u ^ p ≤ 1 := pow_le_one₀ hu0 hu1
  nlinarith [pow_nonneg hu0 p, mul_nonneg ha hr]

lemma chord_sq_bound {c s r a rx rz R : ℝ} (hcs : c ^ 2 + s ^ 2 = 1)
    (hrx : |rx| ≤ a * r) (hrz : |rz| ≤ a * r) (hr0 : 0 ≤ r) (hrR : r ≤ R)
    (ha : 0 ≤ a) :
    (c * r + rx) ^ 2 + (s * r + rz) ^ 2 ≤ (R * (1 + Real.sqrt 2 * a)) ^ 2 := by
  have h2 : Real.sqrt 2 ^ 2 = 2 := Real.sq_sqrt (by norm_num)
  have hs2 : (0 : ℝ) ≤ Real.sqrt 2 := Real.sqrt_nonneg 2
  obtain ⟨hrx1, hrx2⟩ := abs_le.mp hrx
  obtain ⟨hrz1, hrz2⟩ := abs_le.mp hrz
  have hrxsq : rx ^ 2 ≤ (a * r) ^ 2 := by nlinarith
  have hrzsq : rz ^ 2 ≤ (a * r) ^ 2 := by nlinarith
  have ht2 : (c * rx + s * rz) ^ 2 ≤ rx ^ 2 + rz ^ 2 := by
    nlinarith [sq_nonneg (c * rz - s * rx), sq_nonneg rx, sq_nonneg rz]
  have ht : c * rx + s * rz ≤ Real.sqrt 2 * (a * r) := by
    have h1 : (c * rx + s * rz) ^ 2 ≤ (Real.sqrt 2 * (a * r)) ^ 2 := by
      rw [mul_pow, h2]
      nlinarith
    calc c * rx + s * rz ≤ |c * rx + s * rz| := le_abs_self _
    _ = Real.sqrt ((c * rx + s * rz) ^ 2) := (Real.sqrt_sq_eq_abs _).symm
    _ ≤ Real.sqrt ((Real.sqrt 2 * (a * r)) ^ 2) := Real.sqrt_le_sqrt h1
    _ = |Real.sqrt 2 * (a * r)| := Real.sqrt_sq_eq_abs _
    _ = Real.sqrt 2 * (a * r) := abs_of_nonneg (by positivity)
  have hR0 : (0 : ℝ) ≤ R := le_trans hr0 hrR
  have hsq : r ^ 2 ≤ R ^ 2 := by nlinarith
  nlinarith [mul_le_mul_of_nonneg_left ht (by linarith : (0 : ℝ) ≤ 2 * r),
    mul_le_mul_of_nonneg_left hsq (by positivity : (0 : ℝ) ≤ 2 * Real.sqrt 2 * a),
    mul_le_mul_of_nonneg_left hsq (by positivity : (0 : ℝ) ≤ 2 * a ^ 2)]

lemma sqrt_chord_le {x z R b : ℝ} (hb : x ^ 2 + z ^ 2 ≤ (R * b) ^ 2)
    (hRb : 0 ≤ R * b) : Real.sqrt (x ^ 2 + z ^ 2) ≤ R * b := by
  calc Real.sqrt (x ^ 2 + z ^ 2) ≤ Real.sqrt ((R * b) ^ 2) := Real.sqrt_le_sqrt hb
  _ = R * b := Real.sqrt_sq hRb

/-! ### Claims -/

/-- **C1.** One `animate` frame updates each of the three fields `zoom`,
`rotX` (pitch), `rotY` (yaw) independently by the law
`current += (target - current) * 0.04`, with `0.04` a fixed constant: the
frame step is a function of the motion state alone (no elapsed-time
parameter exists in the model because the source reads no clock), and the
motion-state part of `animate` is exactly `advance`. -/
theorem advance_per_field_smoothing_law :
    smoothingFactor = 0.04 ∧
    ∀ s : MotionState,
      (advance s).zoom = s.zoom + (s.targetZoom - s.zoom) * smoothingFactor ∧
      (advance s).rotX = s.rotX + (s.targetRotX - s.rotX) * smoothingFactor ∧
      (advance s).rotY = s.rotY + (s.targetRotY - s.rotY) * smoothingFactor ∧
      ∀ r : RenderObjects, (animate s r).1 = advance s :=
  ⟨rfl, fun _ => ⟨rfl, rfl, rfl, fun _ => rfl⟩⟩

/-- **C3.** From any `targetZoom` in `[8, 180]`, fifty applications of the
`zoom_in` effect drive `targetZoom` to exactly `8`, and after each of the
fifty applications `targetZoom` is at least `8`. -/
theorem zoom_in_fifty_reaches_min :
    ∀ s : MotionState, 8 ≤ s.targetZoom → s.targetZoom ≤ 180 →
      ((applyGesture "zoom_in")^[50] s).targetZoom = 8 ∧
      ∀ k : ℕ, k ≤ 50 → 8 ≤ ((applyGesture "zoom_in")^[k] s).targetZoom := by
  intro s h8 h180
  constructor
  · rw [zoom_in_iterate_targetZoom 50 s h8]
    apply max_eq_left
    push_cast
    linarith
  · intro k _
    rw [zoom_in_iterate_targetZoom k s h8]
    exact le_max_left _ _

/-- Witness for `zoom_in_fifty_reaches_min` at the initial state
(`targetZoom = 45`). -/
theorem zoom_in_fifty_reaches_min_witness :
    (8 : ℚ) ≤ initialState.targetZoom ∧ initialState.targetZoom ≤ 180 ∧
    ((applyGesture "zoom_in")^[50] initialState).targetZoom = 8 :=
  ⟨by norm_num [initialState], by norm_num [initialState],
   (zoom_in_fifty_reaches_min initialState (by norm_num [initialState])
     (by norm_num [initialState])).1⟩

/-- **C4.** `advance` is idempotent at a fixed point: when every target
equals its current value, any number of frame steps leaves the state
unchanged.  With a constant target approached from below, the current
value never exceeds the target after any number of steps (per field).
`N = ⌈ln 0.001 / ln (1 - smoothingFactor)⌉ = 170`, and after 170 steps
the remaining offset to the target is at most 0.1% of the initial offset
(the gap contracts by exactly `(1 - 0.04)^n`, so "within 0.1% of the
target" is read relative to the starting displacement). -/
theorem advance_fixed_point_and_convergence :
    (∀ s : MotionState, s.targetZoom = s.zoom → s.targetRotX = s.rotX →
        s.targetRotY = s.rotY → ∀ n : ℕ, advance^[n] s = s) ∧
    (∀ s : MotionState, s.zoom ≤ s.targetZoom →
        ∀ n : ℕ, (advance^[n] s).zoom ≤ s.targetZoom) ∧
    (∀ s : MotionState, s.rotX ≤ s.targetRotX →
        ∀ n : ℕ, (advance^[n] s).rotX ≤ s.targetRotX) ∧
    (∀ s : MotionState, s.rotY ≤ s.targetRotY →
        ∀ n : ℕ, (advance^[n] s).rotY ≤ s.targetRotY) ∧
    (⌈Real.log 0.001 / Real.log (1 - ((smoothingFactor : ℚ) : ℝ))⌉ = 170) ∧
    (∀ s : MotionState,
        |s.targetZoom - (advance^[170] s).zoom| ≤ 0.001 * |s.targetZoom - s.zoom| ∧
        |s.targetRotX - (advance^[170] s).rotX| ≤ 0.001 * |s.targetRotX - s.rotX| ∧
        |s.targetRotY - (advance^[170] s).rotY| ≤ 0.001 * |s.targetRotY - s.rotY|) := by
  refine ⟨?_, ?_, ?_, ?_, ceil_log_ratio_eq_170, ?_⟩
  · intro s h1 h2 h3 n
    exact Function.iterate_fixed (advance_fixed h1 h2 h3) n
  · intro s h n
    have hc := (advance_iterate_closed n s).2.2.2.1
    nlinarith [pow_smoothing_le n]
  · intro s h n
    have hc := (advance_iterate_closed n s).2.2.2.2.1
    nlinarith [pow_smoothing_le n]
  · intro s h n
    have hc := (advance_iterate_closed n s).2.2.2.2.2
    nlinarith [pow_smoothing_le n]
  · intro s
    obtain ⟨-, -, -, h4, h5, h6⟩ := advance_iterate_closed 170 s
    have habs : ∀ (u v : ℚ), u = (1 - smoothingFactor) ^ 170 * v → |u| ≤ 0.001 * |v| := by
      intro u v huv
      rw [huv, abs_mul, abs_of_nonneg (pow_smoothing_le 170)]
      exact mul_le_mul_of_nonneg_right pow_smoothing_170 (abs_nonneg v)
    exact ⟨habs _ _ h4, habs _ _ h5, habs _ _ h6⟩

/-- Witness for `advance_fixed_point_and_convergence` at the initial
state (targets equal currents, and `zoom = targetZoom = 45`). -/
theorem advance_fixed_point_and_convergence_witness :
    (initialState.targetZoom = initialState.zoom ∧
      advance^[3] initialState = initialState) ∧
    (initialState.zoom ≤ initialState.targetZoom ∧
      (advance^[5] initialState).zoom ≤ initialState.targetZoom) :=
  ⟨⟨rfl, advance_fixed_point_and_convergence.1 initialState rfl rfl rfl 3⟩,
   ⟨le_refl _, advance_fixed_point_and_convergence.2.1 initialState (le_refl _) 5⟩⟩

/-- **C5.** Along every sequence of updates (gesture applications and
frame steps) from the initial state (`zoom = 45`), the current
`zoomDistance` stays within `[8, 180]`.  Since the sequence is arbitrary,
this covers the state after every intermediate update. -/
theorem zoom_distance_invariant :
    ∀ ops : List GalaxyOp,
      8 ≤ (run ops initialState).zoom ∧ (run ops initialState).zoom ≤ 180 := by
  intro ops
  have h := run_zoom_range ops initialState (by norm_num [initialState])
    (by norm_num [initialState]) (by norm_num [initialState]) (by norm_num [initialState])
  exact ⟨h.1, h.2.1⟩

/-- **C6.** From an idle session, a `move_left` arrival at time `t`
subtracts `0.12` from `targetRotY` and schedules a revert timer at
`t + dwellDuration`; when that timer fires with no further input, the
session is back at `stop` (IDLE), `targetRotX` is reset to `0.3`
(resting pitch), `targetRotY` is multiplied by exactly `0.4` (stop decay)
once — from its value at the moment of the stop application — and idle
frames (`advance` steps) never change the targets again. -/
theorem move_left_dwell_revert :
    ∀ s : AppState, s.currentGesture = "stop" → ∀ t : ℚ,
      (onGestureMessage t "move_left" s).motion.targetRotY
          = s.motion.targetRotY - 0.12 ∧
      (onGestureMessage t "move_left" s).timers = s.timers ++ [t + dwellDuration] ∧
      (fireTimer (t + dwellDuration)
          (onGestureMessage t "move_left" s)).currentGesture = "stop" ∧
      (fireTimer (t + dwellDuration)
          (onGestureMessage t "move_left" s)).motion.targetRotX = 0.3 ∧
      (fireTimer (t + dwellDuration) (onGestureMessage t "move_left" s)).motion.targetRotY
          = (onGestureMessage t "move_left" s).motion.targetRotY * 0.4 ∧
      ∀ n : ℕ,
        (advance^[n] (fireTimer (t + dwellDuration)
            (onGestureMessage t "move_left" s)).motion).targetRotX
          = (fireTimer (t + dwellDuration)
            (onGestureMessage t "move_left" s)).motion.targetRotX ∧
        (advance^[n] (fireTimer (t + dwellDuration)
            (onGestureMessage t "move_left" s)).motion).targetRotY
          = (fireTimer (t + dwellDuration)
            (onGestureMessage t "move_left" s)).motion.targetRotY := by
  intro s hs t
  simp [onGestureMessage, setCurrentGesture, fireTimer, applyGesture, hs]
  exact fun n => ⟨(advance_iterate_closed n _).2.1, (advance_iterate_closed n _).2.2.1⟩

/-- Witness for `move_left_dwell_revert` at the initial app state with
arrival time `t = 0`. -/
theorem move_left_dwell_revert_witness :
    (onGestureMessage 0 "move_left" initialAppState).motion.targetRotY
        = initialAppState.motion.targetRotY - 0.12 ∧
    (fireTimer (0 + dwellDuration)
        (onGestureMessage 0 "move_left" initialAppState)).currentGesture = "stop" ∧
    (fireTimer (0 + dwellDuration)
        (onGestureMessage 0 "move_left" initialAppState)).motion.targetRotX = 0.3 ∧
    (fireTimer (0 + dwellDuration) (onGestureMessage 0 "move_left" initialAppState)).motion.targetRotY
        = (onGestureMessage 0 "move_left" initialAppState).motion.targetRotY * 0.4 := by
  obtain ⟨h1, -, h3, h4, h5, -⟩ := move_left_dwell_revert initialAppState rfl 0
  exact ⟨h1, h3, h4, h5⟩

/-- **C7 (counterexample).** Two identical `zoom_in` arrivals at times 0
and 500: the claim predicts the second arrival re-applies the effect
(target zoom 25) and cancels the timer pending at 2500.  In the code the
second identical gesture changes nothing (the React state does not change
and the effect hook does not re-run), so the target zoom stays 35, and
both revert timers (2500 and 3000) remain pending. -/
theorem repeated_gesture_counterexample :
    (onGestureMessage 500 "zoom_in"
        (onGestureMessage 0 "zoom_in" initialAppState)).motion.targetZoom = 35 ∧
    (onGestureMessage 500 "zoom_in"
        (onGestureMessage 0 "zoom_in" initialAppState)).motion.targetZoom ≠ 25 ∧
    (onGestureMessage 500 "zoom_in"
        (onGestureMessage 0 "zoom_in" initialAppState)).timers = [2500, 3000] := by
  have h1 : onGestureMessage 0 "zoom_in" initialAppState =
      { currentGesture := "zoom_in",
        motion := { initialState with targetZoom := 35 },
        timers := [2500] } := by
    simp [onGestureMessage, setCurrentGesture, applyGesture, initialAppState,
      initialState, dwellDuration, max_def]
    norm_num
  rw [h1]
  refine ⟨?_, ?_, ?_⟩ <;>
  · simp [onGestureMessage, setCurrentGesture, applyGesture, initialState,
      dwellDuration, max_def]
    try norm_num

/-- **C7 (amended).** A non-stop gesture `g` arriving while the session
is active re-applies its effect and becomes the displayed gesture only
when `g` differs from the currently displayed gesture; an identical
repeated gesture leaves the motion state and the displayed gesture
unchanged.  Every arrival schedules an additional revert timer at
`t + dwellDuration`; previously pending timers are not cancelled — they
stay in the pending list. -/
theorem gesture_arrival_behavior :
    ∀ (s : AppState) (t : ℚ) (g : String), g ≠ "stop" →
      (g ≠ s.currentGesture →
        (onGestureMessage t g s).motion = applyGesture g s.motion ∧
        (onGestureMessage t g s).currentGesture = g) ∧
      (g = s.currentGesture →
        (onGestureMessage t g s).motion = s.motion ∧
        (onGestureMessage t g s).currentGesture = s.currentGesture) ∧
      (onGestureMessage t g s).timers = s.timers ++ [t + dwellDuration] := by
  intro s t g _
  refine ⟨?_, ?_, ?_⟩
  · intro hne
    simp [onGestureMessage, setCurrentGesture, hne]
  · intro heq
    simp [onGestureMessage, setCurrentGesture, heq]
  · by_cases h : g = s.currentGesture <;> simp [onGestureMessage, setCurrentGesture, h]

/-- Witness for `gesture_arrival_behavior`: `zoom_in` arriving at time 0
in the initial (idle) session applies its effect, is displayed, and adds
a timer at 2500. -/
theorem gesture_arrival_behavior_witness :
    (onGestureMessage 0 "zoom_in" initialAppState).motion
        = applyGesture "zoom_in" initialAppState.motion ∧
    (onGestureMessage 0 "zoom_in" initialAppState).currentGesture = "zoom_in" ∧
    (onGestureMessage 0 "zoom_in" initialAppState).timers
        = initialAppState.timers ++ [0 + dwellDuration] := by
  obtain ⟨h1, -, h3⟩ :=
    gesture_arrival_behavior initialAppState 0 "zoom_in" (by decide)
  obtain ⟨h1a, h1b⟩ := h1 (by decide)
  exact ⟨h1a, h1b, h3⟩

/-- **C8 (counterexample).** With current yaw `rotY = 1` (target `1`) and
backend yaw `0`, one frame leaves the smoothed yaw at `1` but writes
`0 + 0.0006 + 1 = 1.0006` to the backend: the transform's yaw does not
equal the current smoothed yaw, because `points.rotation.y += s.rotY`
accumulates instead of assigning. -/
theorem render_yaw_counterexample :
    (animate { initialState with rotY := 1, targetRotY := 1 }
        { cameraZ := 45, pointsRotX := 0.3, pointsRotY := 0 }).2.pointsRotY ≠
    (animate { initialState with rotY := 1, targetRotY := 1 }
        { cameraZ := 45, pointsRotX := 0.3, pointsRotY := 0 }).1.rotY := by
  norm_num [animate, advance, initialState]

/-- **C8 (amended).** Each frame performs exactly the advance step and
then hands the backend: camera distance equal to the current smoothed
zoom, object pitch equal to the current smoothed `rotX`, and an object
yaw *increment*: the backend yaw grows by the drift constant `0.0006`
plus the current smoothed `rotY`, rather than being set equal to it.  No
other state is touched. -/
theorem animate_transform_law :
    ∀ (s : MotionState) (r : RenderObjects),
      (animate s r).1 = advance s ∧
      (animate s r).2.cameraZ = (advance s).zoom ∧
      (animate s r).2.pointsRotX = (advance s).rotX ∧
      (animate s r).2.pointsRotY = r.pointsRotY + 0.0006 + (advance s).rotY :=
  fun _ _ => ⟨rfl, rfl, rfl, rfl⟩

/-- The seven gesture strings with a defined effect in the switch of
part_000 lines 141-166; `rotate` and out-of-enum values are not among
them. -/
def effectGestures : List String :=
  ["zoom_in", "zoom_out", "move_left", "move_right", "move_up", "move_down", "stop"]

/-- **C9 (counterexample).** The reserved gesture `rotate` arriving in
the idle session leaves the motion state unchanged, but the session state
does change: the displayed current gesture becomes `rotate` (and a revert
timer is scheduled), refuting "session state unchanged". -/
theorem unknown_gesture_counterexample :
    applyGesture "rotate" initialState = initialState ∧
    (onGestureMessage 0 "rotate" initialAppState).currentGesture
        ≠ initialAppState.currentGesture := by
  constructor
  · simp [applyGesture]
  · simp [onGestureMessage, setCurrentGesture, initialAppState]

/-- **C9 (amended).** Every gesture value outside the seven with a
defined effect (any out-of-enum string, and the reserved `rotate`) leaves
the whole motion state (currents and targets) unchanged and surfaces no
error (the handler is total); however the session's displayed current
gesture becomes the received value and a revert timer is scheduled, so
the session state is not left unchanged. -/
theorem unknown_gesture_motion_noop :
    ∀ g : String, g ∉ effectGestures →
      (∀ s : MotionState, applyGesture g s = s) ∧
      (∀ (a : AppState) (t : ℚ),
        (onGestureMessage t g a).motion = a.motion ∧
        (onGestureMessage t g a).currentGesture = g ∧
        (onGestureMessage t g a).timers = a.timers ++ [t + dwellDuration]) := by
  intro g hg
  simp only [effectGestures, List.mem_cons, List.not_mem_nil, or_false, not_or] at hg
  obtain ⟨h1, h2, h3, h4, h5, h6, h7⟩ := hg
  have hnoop : ∀ s : MotionState, applyGesture g s = s := by
    intro s
    simp [applyGesture, h1, h2, h3, h4, h5, h6, h7]
  refine ⟨hnoop, ?_⟩
  intro a t
  by_cases h : g = a.currentGesture <;>
    simp [onGestureMessage, setCurrentGesture, h, hnoop]

/-- Witness for `unknown_gesture_motion_noop` at `rotate`, the initial
motion state and the initial app state. -/
theorem unknown_gesture_motion_noop_witness :
    applyGesture "rotate" initialState = initialState ∧
    (onGestureMessage 0 "rotate" initialAppState).motion = initialAppState.motion ∧
    (onGestureMessage 0 "rotate" initialAppState).currentGesture = "rotate" := by
  obtain ⟨h1, h2⟩ := unknown_gesture_motion_noop "rotate" (by decide)
  exact ⟨h1 initialState, (h2 initialAppState 0).1, (h2 initialAppState 0).2.1⟩

/-- **C2 (amended).** For every valid parameter set, draw stream and
count, `generate` returns exactly `count` positions and `count` colors,
and every color component lies in `[0, 1]`.  The horizontal distance of a
particle from the origin (ignoring the vertical `y` component) is bounded
by `radius * (1 + √2 * randomness)`: the two independent horizontal
offsets can add diagonally, so the claimed bound
`radius * (1 + randomness)` is not the correct one (see the
counterexample), and `√2` is the factor the diagonal forces. -/
theorem generate_counts_colors_distance :
    ∀ (p : GalaxyParams) (count : ℕ) (rnd : ParticleDraws),
      ValidParams p → ValidRnd rnd →
      (generate p count rnd).1.length = count ∧
      (generate p count rnd).2.length = count ∧
      (∀ c ∈ (generate p count rnd).2,
        (0 ≤ c.r ∧ c.r ≤ 1) ∧ (0 ≤ c.g ∧ c.g ≤ 1) ∧ (0 ≤ c.b ∧ c.b ≤ 1)) ∧
      (∀ v ∈ (generate p count rnd).1,
        Real.sqrt (v.x ^ 2 + v.z ^ 2)
          ≤ (p.radius : ℝ) * (1 + Real.sqrt 2 * (p.randomness : ℝ))) := by
  intro p count rnd hp hrnd
  obtain ⟨hrad, hbr, hrand, hpow, hir, hig, hib, hor, hog, hob⟩ := hp
  refine ⟨by simp [generate], by simp [generate], ?_, ?_⟩
  · intro col hcol
    simp only [generate, List.mem_map, List.mem_range] at hcol
    obtain ⟨i, hi, rfl⟩ := hcol
    have hα : (rnd (7 * i) * p.radius) / p.radius = rnd (7 * i) :=
      mul_div_cancel_right₀ _ (ne_of_gt hrad)
    have hu := hrnd (7 * i)
    simp only [particleColor, lerpColor, hα]
    exact ⟨lerp_mem_unit hir.1 hir.2 hor.1 hor.2 hu.1 (le_of_lt hu.2),
           lerp_mem_unit hig.1 hig.2 hog.1 hog.2 hu.1 (le_of_lt hu.2),
           lerp_mem_unit hib.1 hib.2 hob.1 hob.2 hu.1 (le_of_lt hu.2)⟩
  · intro v hv
    simp only [generate, List.mem_map, List.mem_range] at hv
    obtain ⟨i, hi, rfl⟩ := hv
    have hu := hrnd (7 * i)
    have hr0 : (0 : ℚ) ≤ rnd (7 * i) * p.radius := mul_nonneg hu.1 (le_of_lt hrad)
    have hrR : rnd (7 * i) * p.radius ≤ p.radius := by
      nlinarith [hu.1, hu.2, hrad]
    have hrx := offset_abs_le (rnd (7 * i + 2)) p.randomnessPower
      (hrnd (7 * i + 1)).1 (le_of_lt (hrnd (7 * i + 1)).2) hrand hr0
      (u := rnd (7 * i + 1)) (a := p.randomness) (r := rnd (7 * i) * p.radius)
    have hrz := offset_abs_le (rnd (7 * i + 6)) p.randomnessPower
      (hrnd (7 * i + 5)).1 (le_of_lt (hrnd (7 * i + 5)).2) hrand hr0
      (u := rnd (7 * i + 5)) (a := p.randomness) (r := rnd (7 * i) * p.radius)
    have hrand' : (0 : ℝ) ≤ (p.randomness : ℚ) := by exact_mod_cast hrand
    have hrad' : (0 : ℝ) ≤ (p.radius : ℚ) := by exact_mod_cast le_of_lt hrad
    simp only [particlePosition]
    apply sqrt_chord_le
    · apply chord_sq_bound (Real.cos_sq_add_sin_sq _)
      · push_cast
        exact_mod_cast hrx
      · push_cast
        exact_mod_cast hrz
      · exact_mod_cast hr0
      · exact_mod_cast hrR
      · exact hrand'
    · have h1 : (0 : ℝ) ≤ 1 + Real.sqrt 2 * (p.randomness : ℚ) := by
        nlinarith [Real.sqrt_nonneg (2 : ℝ)]
      exact mul_nonneg hrad' h1

/-- Witness for `generate_counts_colors_distance`: the source parameter
set, three particles, and the constant draw stream `1/2`. -/
theorem generate_counts_colors_distance_witness :
    ValidParams sourceParams ∧ ValidRnd (fun _ => 1/2) ∧
    (generate sourceParams 3 (fun _ => 1/2)).1.length = 3 ∧
    (generate sourceParams 3 (fun _ => 1/2)).2.length = 3 := by
  have h1 : ValidParams sourceParams := by norm_num [ValidParams, sourceParams]
  have h2 : ValidRnd (fun _ => 1/2) := fun k => by norm_num
  obtain ⟨hl1, hl2, -, -⟩ := generate_counts_colors_distance sourceParams 3 _ h1 h2
  exact ⟨h1, h2, hl1, hl2⟩

/-- Parameters for the distance counterexample: the source configuration
with `spin := 0` (so the first particle sits on the `x` axis) and full
`randomness := 1`.  All validity constraints hold. -/
def paramsCE : GalaxyParams :=
  { radius := 35, branches := 5, spin := 0, randomness := 1, randomnessPower := 3
    innerColor := ⟨1, 187/255, 51/255⟩
    outerColor := ⟨51/255, 153/255, 1⟩ }

/-- Draw stream for the distance counterexample: sign draws (call indices
2, 4, 6 modulo 7) return `0.4` (giving sign `+1`), every other draw
returns `0.99`. -/
def rndCE : ParticleDraws := fun k =>
  if k % 7 = 2 ∨ k % 7 = 4 ∨ k % 7 = 6 then 0.4 else 0.99

/-- **C2 (counterexample).** With valid parameters (radius 35,
randomness 1, spin 0) and in-range draws, the single generated particle
has horizontal distance `√(68.27...² + 33.62...²) ≈ 76.1` from the
origin, exceeding the claimed bound
`radius * (1 + randomness) = 70` by far more than floating tolerance:
the `x` and `z` offsets add diagonally. -/
theorem generate_distance_counterexample :
    ValidParams paramsCE ∧ ValidRnd rndCE ∧
    (generate paramsCE 1 rndCE).1 = [particlePosition paramsCE rndCE 0] ∧
    (paramsCE.radius : ℝ) * (1 + (paramsCE.randomness : ℝ))
      < Real.sqrt ((particlePosition paramsCE rndCE 0).x ^ 2
          + (particlePosition paramsCE rndCE 0).z ^ 2) := by
  refine ⟨by norm_num [ValidParams, paramsCE], ?_, by simp [generate, List.range_succ], ?_⟩
  · intro k
    unfold rndCE
    split_ifs <;> norm_num
  · have hx : (particlePosition paramsCE rndCE 0).x
        = ((693/20 + 970299/1000000 * (693/20) : ℚ) : ℝ) := by
      simp [particlePosition, paramsCE, rndCE, randSign]
      norm_num
    have hz : (particlePosition paramsCE rndCE 0).z
        = ((970299/1000000 * (693/20) : ℚ) : ℝ) := by
      simp [particlePosition, paramsCE, rndCE, randSign]
      norm_num
    rw [hx, hz]
    have h70 : (paramsCE.radius : ℝ) * (1 + (paramsCE.randomness : ℝ)) = 70 := by
      norm_num [paramsCE]
    rw [h70, show (70 : ℝ) = Real.sqrt (70 ^ 2) from (Real.sqrt_sq (by norm_num)).symm]
    apply Real.sqrt_lt_sqrt (by norm_num)
    push_cast
    norm_num

/-- **C10.** Every gesture application mutates only target fields: the
current fields `zoom`, `rotX`, `rotY` are untouched by `applyGesture` for
every gesture value, and conversely `advance` (the only per-frame step)
leaves all target fields untouched. -/
theorem gesture_targets_only :
    ∀ (g : String) (s : MotionState),
      ((applyGesture g s).zoom = s.zoom ∧
       (applyGesture g s).rotX = s.rotX ∧
       (applyGesture g s).rotY = s.rotY) ∧
      ((advance s).targetZoom = s.targetZoom ∧
       (advance s).targetRotX = s.targetRotX ∧
       (advance s).targetRotY = s.targetRotY) := by
  intro g s
  refine ⟨?_, rfl, rfl, rfl⟩
  unfold applyGesture
  split_ifs <;> exact ⟨rfl, rfl, rfl⟩

end TheGalaxy
